import Mathlib

/-!
# Verification of the twitterHPC-A1 sentiment-aggregation pipeline

A shallow embedding of `src/main.py`: a program that classifies geotagged
text records into rectangular regions, scores each record's text against a
word-weight lexicon, and accumulates per-region totals.

Modelling conventions:
* Python strings are modelled as `List Char` (`Str`), so that splitting and
  comparison are structurally recursive and kernel-computable.
* Python `dict` built from an association list is modelled as the list of
  pairs itself; lookup (`dictLookup`) takes the value of the *last* pair
  with the given key, matching `dict` insert-overwrite semantics.
* A Python exception escaping a function is modelled by the function
  returning `none`.
* Numbers compared by `area_mapper` are modelled as `Int` (the claims and
  scenarios only involve integral coordinates and bounds, and the code only
  compares them with `>=`).
-/

/-- Strings are lists of characters. -/
abbrev Str := List Char

/-- `splitOnChar c s` models Python `s.split(sep)` for a one-character
separator `sep = c`: empty fields are preserved and the result is never
empty (`"".split(sep) == [""]`). -/
def splitOnChar (c : Char) : Str → List Str
  | [] => [[]]
  | a :: rest =>
    let r := splitOnChar c rest
    if a = c then [] :: r
    else
      match r with
      | [] => [[a]]
      | h :: t => (a :: h) :: t

/-- `splitOnChar` never returns the empty list (Python `split` always yields
at least one field). -/
theorem splitOnChar_ne_nil (c : Char) (s : Str) : splitOnChar c s ≠ [] := by
  cases s with
  | nil => simp [splitOnChar]
  | cons a rest =>
    simp only [splitOnChar]
    split
    · simp
    · cases h : splitOnChar c rest <;> simp

/-- `digitsToNat ds` is the number denoted by a list of decimal digits. -/
def digitsToNat (ds : List Char) : Nat :=
  ds.foldl (fun n c => 10 * n + (c.toNat - '0'.toNat)) 0

/-- `pyStrip s` models Python `str.strip()`: whitespace removed from both
ends. -/
def pyStrip (s : Str) : Str :=
  ((s.dropWhile Char.isWhitespace).reverse.dropWhile Char.isWhitespace).reverse

/-- `pyInt s` models Python `int(s)` on a string: optional surrounding
whitespace, optional sign, then a nonempty run of decimal digits; any other
shape raises `ValueError`, modelled as `none`. -/
def pyInt (s : Str) : Option Int :=
  match pyStrip s with
  | '-' :: ds =>
    if ds ≠ [] ∧ ds.all Char.isDigit then some (-(digitsToNat ds : Int)) else none
  | '+' :: ds =>
    if ds ≠ [] ∧ ds.all Char.isDigit then some (digitsToNat ds : Int) else none
  | ds =>
    if ds ≠ [] ∧ ds.all Char.isDigit then some (digitsToNat ds : Int) else none

/-- `dictLookup m k` models Python `d[k]` / `k in d` for a `dict` built by
inserting the pairs of `m` in order: the last binding of `k` wins, a missing
key gives `none` (a `KeyError` at use sites). -/
def dictLookup {α : Type} (m : List (Str × α)) (k : Str) : Option α :=
  m.foldl (fun acc p => if p.1 = k then some p.2 else acc) none

/-!
## SentimentMap (`src/main.py` lines 49–76)

`load_from_string` splits the source on newlines, splits each row on tabs,
and calls `dict(data)`; `dict` raises `ValueError` as soon as one row is not
a two-element sequence.  Note that the weight is stored as a *string*: no
integer parsing happens at load time.
-/

/-- The rows of a lexicon source: split on newlines, each line split on
tabs (`src/main.py` line 62). -/
def lexRows (data_str : Str) : List (List Str) :=
  (splitOnChar '\n' data_str).map (splitOnChar '\t')

/-- Reads a two-element row as a pair; the fallback is unreachable under the
`dict` length guard. -/
def rowToPair (r : List Str) : Str × Str :=
  (r.headD [], (r.drop 1).headD [])

/-- `SentimentMap.load_from_string` (`src/main.py` lines 61–67):
`dict(list(map(lambda x: x.split("\t"), data_str.split("\n"))))`.
Returns the association list backing the dict, or `none` when `dict`
raises because some row does not have exactly two fields. -/
def SentimentMap.load_from_string (data_str : Str) : Option (List (Str × Str)) :=
  let data := lexRows data_str
  if data.all (fun r => r.length = 2) then some (data.map rowToPair) else none

/-!
## AreaMap and `area_mapper` (`src/main.py` lines 79–107, 208–219)

`AreaMap.map` is a dict `id -> {xmin, xmax, ymin, ymax}`; its items iterate
in insertion order, i.e. in the definition order of the features.  We model
it as the ordered list of `(id, box)` pairs directly.
-/

/-- The four bounds of a region (`properties` of one feature). -/
structure Box where
  xmin : Int
  xmax : Int
  ymin : Int
  ymax : Int
deriving DecidableEq

/-- An area map: region ids with their boxes, in definition order. -/
abbrev AreaGrid := List (Str × Box)

/-- The containment test of `area_mapper` (`src/main.py` lines 210–211):
`x[1]["xmax"] >= c[0] >= x[1]["xmin"] and x[1]["ymax"] >= c[1] >= x[1]["ymin"]`. -/
def boxContains (b : Box) (c : Int × Int) : Bool :=
  b.xmax ≥ c.1 && c.1 ≥ b.xmin && b.ymax ≥ c.2 && c.2 ≥ b.ymin

/-- `area_mapper` (`src/main.py` lines 208–219): filter the grid items by
containment; return the id of the first survivor, or `""` when none. -/
def area_mapper (coordinates : Int × Int) (area_map : AreaGrid) : Str :=
  let potential_area := area_map.filter (fun x => boxContains x.2 coordinates)
  match potential_area with
  | p :: _ => p.1
  | [] => []

/-- The spec's description of classification (`spec.md` §4.2): first region
in definition order whose inclusive box contains the coordinate, else the
distinguished unclassified marker (the empty string). -/
def classifySpec (area_map : AreaGrid) (c : Int × Int) : Str :=
  match area_map.find? (fun r => boxContains r.2 c) with
  | some r => r.1
  | none => []

/-!
## The post pipeline (`src/main.py` lines 166–226)
-/

/-- `sentiment_reducer` (`src/main.py` lines 222–226):
`n = 0; for i in text: n += int(sentiment_map[i]); return n`.
A missing token (`KeyError`) or an unparseable weight (`ValueError`)
escapes, modelled as `none`. -/
def sentiment_reducer (text : List Str) (sentiment_map : List (Str × Str)) : Option Int :=
  text.foldlM (fun n i => ((dictLookup sentiment_map i).bind pyInt).map (n + ·)) 0

/-- A raw input record: `data['properties']['text']` and
`data['geometry']['coordinates']`, either of which may be missing
(`KeyError` when accessed). -/
structure RawRecord where
  text : Option Str
  coordinates : Option (Int × Int)

/-- `TwitterPostFactory`'s configuration (`src/main.py` lines 174–183):
mapper and filter lists in registration order, plus the shared maps.
The reducer and area mapper passed in `__main__` are the module-level
`sentiment_reducer` and `area_mapper`, inlined here. -/
structure Factory where
  text_mappers : List (Str → Str)
  text_filters : List (Str → Bool)
  sentiment_map : List (Str × Str)
  area_map : AreaGrid

/-- The mapper stage of `produce` (`src/main.py` lines 188–189):
`for func in self.text_mappers: text = list(map(func, text))`. -/
def applyMappers (mappers : List (Str → Str)) (text : List Str) : List Str :=
  mappers.foldl (fun t f => t.map f) text

/-- The filter stage of `produce` (`src/main.py` lines 190–191):
`for func in self.text_filters: text = list(filter(func, text))`. -/
def applyFilters (filters : List (Str → Bool)) (text : List Str) : List Str :=
  filters.foldl (fun t f => t.filter f) text

/-- `TwitterPostFactory.produce` (`src/main.py` lines 185–199): tokenize on
single spaces, run the mapper stages, run the filter stages, classify the
coordinate, return `(None, 0)` when the area is falsy (`""`), otherwise
reduce to a score.  A `KeyError` on a missing field or an exception from the
reducer escapes, modelled by the outer `none`. -/
def Factory.produce (f : Factory) (data : RawRecord) : Option (Option Str × Int) := do
  let rawText ← data.text
  let text0 := splitOnChar ' ' rawText
  let text1 := applyMappers f.text_mappers text0
  let text2 := applyFilters f.text_filters text1
  let coordinates ← data.coordinates
  let area := area_mapper coordinates f.area_map
  if area = [] then
    pure (none, 0)
  else do
    let score ← sentiment_reducer text2 f.sentiment_map
    pure (some area, score)

/-!
## The driver loop (`src/main.py` lines 242–246)

```
result = {k: 0 for k in area.map}
for item in tw.data:
    k, v = factory.produce(item)
    if k:
        result[k] += v
```
-/

/-- `result = {k: 0 for k in area.map}`: every region id of the grid bound
to `0`, in grid order. -/
def initResult (g : AreaGrid) : List (Str × Int) :=
  g.map (fun r => (r.1, 0))

/-- `result[k] += v`: a `KeyError` (modelled `none`) when `k` is not bound;
otherwise the binding of `k` is increased by `v` in place. -/
def updateAdd (res : List (Str × Int)) (k : Str) (v : Int) : Option (List (Str × Int)) :=
  if res.any (fun p => p.1 = k) then
    some (res.map (fun p => if p.1 = k then (p.1, p.2 + v) else p))
  else none

/-- The body of the driver's `for` loop threaded over the remaining items:
any exception (`none` from `produce` or from `result[k] += v`) aborts the
whole run.  `if k:` drops records whose area is `None`. -/
def runLoop (f : Factory) (res : List (Str × Int)) : List RawRecord → Option (List (Str × Int))
  | [] => some res
  | item :: rest =>
    match f.produce item with
    | none => none
    | some (none, _) => runLoop f res rest
    | some (some a, v) =>
      match updateAdd res a v with
      | none => none
      | some res' => runLoop f res' rest

/-- The whole aggregation run of `__main__`: initialize one zero entry per
grid region, then fold the loop body over the items. -/
def runAggregate (f : Factory) (items : List RawRecord) : Option (List (Str × Int)) :=
  runLoop f (initResult f.area_map) items

/-!
## Streaming-mode file handling (`src/main.py` lines 115–163)

`load_from_file_massive` opens the source file and hands it to
`load_from_string_massive`, which only stores the `ijson` iterator in
`self.data`; nothing ever assigns `self.massive_file`, which `close`
consults.  The file system is modelled as a supply of fresh handles plus the
set of currently open ones.
-/

/-- The open-handle state of the process. -/
structure FileSystem where
  nextHandle : Nat
  openHandles : List Nat
deriving DecidableEq

/-- `open(path, mode='r')`: returns a fresh handle and records it open. -/
def pyOpen (fs : FileSystem) : Nat × FileSystem :=
  (fs.nextHandle, ⟨fs.nextHandle + 1, fs.nextHandle :: fs.openHandles⟩)

/-- `f.close()` on a handle. -/
def closeHandle (fs : FileSystem) (h : Nat) : FileSystem :=
  ⟨fs.nextHandle, fs.openHandles.erase h⟩

/-- The fields of `TwitterData` relevant to resource handling
(`src/main.py` lines 115–121): `self.data` (here: the handle the `ijson`
stream reads from) and `self.massive_file`, both `None` after `__init__`. -/
structure TwitterDataState where
  dataHandle : Option Nat
  massive_file : Option Nat
deriving DecidableEq

/-- `TwitterData.__init__`: `self.data = None`, `self.massive_file = None`. -/
def TwitterData.init : TwitterDataState := ⟨none, none⟩

/-- `TwitterData.load_from_string_massive` (`src/main.py` lines 149–156):
sets `self.data = ijson.items(file, ...)`, a lazy iterator over the open
file `f`; `self.massive_file` is not touched. -/
def TwitterData.load_from_string_massive (td : TwitterDataState) (f : Nat) : TwitterDataState :=
  { td with dataHandle := some f }

/-- `TwitterData.load_from_file_massive` (`src/main.py` lines 130–135):
`f = open(path); self.load_from_string_massive(f); return self`.
The local `f` is never assigned to `self.massive_file`. -/
def TwitterData.load_from_file_massive (td : TwitterDataState) (fs : FileSystem) :
    TwitterDataState × FileSystem :=
  let (f, fs') := pyOpen fs
  (TwitterData.load_from_string_massive td f, fs')

/-- `TwitterData.close` (`src/main.py` lines 158–160):
`if self.massive_file: self.massive_file.close()`. -/
def TwitterData.close (td : TwitterDataState) (fs : FileSystem) : FileSystem :=
  match td.massive_file with
  | some h => closeHandle fs h
  | none => fs

/-!
## Claim theorems
-/

/-- Claim C1: for every coordinate and region grid, classification
(`area_mapper`) returns the id of the first region in definition order whose
bounding box contains the coordinate under inclusive comparison on all four
sides, and returns the distinguished unclassified marker (the empty string)
when no region's box contains it. -/
theorem spec_C1_classify_first_match (c : Int × Int) (g : AreaGrid) :
    area_mapper c g = classifySpec g c := by
  induction g with
  | nil => rfl
  | cons r g ih =>
    simp only [area_mapper, classifySpec, List.filter_cons, List.find?_cons]
    cases h : boxContains r.2 c with
    | true => simp [h]
    | false =>
      simp only [h, Bool.false_eq_true, if_false]
      exact ih

/-- Claim C4: the mapper stage applies the registered mappers stage by
stage, in registration order (first conjunct, the loop of lines 188–189);
since mappers are pure this equals threading the whole mapper chain through
each token (second conjunct). -/
theorem spec_C4_mapper_stages (ms : List (Str → Str)) (text : List Str) :
    applyMappers ms text = ms.foldl (fun t f => t.map f) text
    ∧ applyMappers ms text = text.map (fun tok => ms.foldl (fun s f => f s) tok) := by
  refine ⟨rfl, ?_⟩
  induction ms generalizing text with
  | nil => simp [applyMappers]
  | cons f ms ih =>
    simp only [applyMappers, List.foldl_cons] at *
    rw [ih (text.map f), List.map_map]
    rfl

/-- Claim C5: sequentially filtering by each registered filter in
registration order equals filtering once by the conjunction (AND) of all
filters, so rejection by any single filter removes the token regardless of
the others. -/
theorem spec_C5_filters_anded (fs : List (Str → Bool)) (text : List Str) :
    applyFilters fs text = text.filter (fun tok => fs.all (fun f => f tok)) := by
  induction fs generalizing text with
  | nil => simp [applyFilters]
  | cons f fs ih =>
    simp only [applyFilters, List.foldl_cons] at *
    rw [ih (text.filter f), List.filter_filter]
    refine List.filter_congr ?_
    intro x _
    simp [List.all_cons, Bool.and_comm]

/-- Claim C6 (amended): lexicon construction fails if and only if some row
does not split into exactly two tab-separated fields.  Parseability of the
weight is *not* checked at construction: `dict` stores the weight as a
string, and `int(...)` only runs later inside `sentiment_reducer`. -/
theorem spec_C6_load_fails_iff_bad_row (s : Str) :
    SentimentMap.load_from_string s = none ↔ ∃ r ∈ lexRows s, r.length ≠ 2 := by
  simp only [SentimentMap.load_from_string]
  by_cases h : (lexRows s).all (fun r => r.length = 2)
  · rw [if_pos h]
    rw [List.all_eq_true] at h
    simp only [decide_eq_true_eq] at h
    refine iff_of_false (by simp) ?_
    rintro ⟨r, hr, hlen⟩
    exact hlen (h r hr)
  · rw [if_neg h]
    rw [List.all_eq_true] at h
    simp only [decide_eq_true_eq] at h
    push_neg at h
    exact iff_of_true rfl h

/-- Claim C6, counterexample to the claim as stated: the source
`"good\tx"` has a row whose weight field `"x"` is not parseable as an
integer, so the claim says construction must fail; the code happily
produces the lexicon `{"good": "x"}`. -/
theorem spec_C6_counterexample :
    pyInt ['x'] = none
    ∧ SentimentMap.load_from_string ("good\tx".toList) =
        some [("good".toList, ['x'])] := by
  constructor
  · decide
  · decide

/-- Splitting `s ++ [c]` on `c` appends one empty final field, as in Python
`(s + sep).split(sep) == s.split(sep) + [""]`. -/
theorem splitOnChar_append_sep (c : Char) (s : Str) :
    splitOnChar c (s ++ [c]) = splitOnChar c s ++ [[]] := by
  induction s with
  | nil => simp [splitOnChar]
  | cons a s ih =>
    by_cases hac : a = c
    · subst hac
      simp [splitOnChar, ih]
    · cases h : splitOnChar c s with
      | nil => exact absurd h (splitOnChar_ne_nil c s)
      | cons hd tl => simp [splitOnChar, hac, ih, h]

/-- An empty line in the lexicon source makes `load_from_string` fail: the
empty line splits on tabs into the single field `[""]`, and `dict` rejects a
row of length 1. -/
theorem load_from_string_none_of_empty_line {s : Str}
    (h : [] ∈ splitOnChar '\n' s) :
    SentimentMap.load_from_string s = none := by
  simp only [SentimentMap.load_from_string]
  rw [if_neg]
  intro hall
  rw [List.all_eq_true] at hall
  have hrow := hall (splitOnChar '\t' [])
    (by simpa only [lexRows] using List.mem_map_of_mem (splitOnChar '\t') h)
  simp [splitOnChar] at hrow

/-- Claim C10: a lexicon source that ends with a newline or contains an
empty line cannot be loaded: the empty row splits into a single field and
`dict` construction fails, so even a well-formed two-column lexicon file
terminated by a trailing newline is rejected. -/
theorem spec_C10_trailing_newline_breaks_load (s : Str)
    (h : (∃ t, s = t ++ ['\n']) ∨ [] ∈ splitOnChar '\n' s) :
    SentimentMap.load_from_string s = none := by
  apply load_from_string_none_of_empty_line
  rcases h with ⟨t, rfl⟩ | h
  · rw [splitOnChar_append_sep]
    simp
  · exact h

/-- Concrete instance of C10: the well-formed one-row lexicon
`"good\t2\n"` with a trailing newline fails to load. -/
theorem spec_C10_witness :
    SentimentMap.load_from_string ("good\t2\n".toList) = none :=
  spec_C10_trailing_newline_breaks_load ("good\t2\n".toList)
    (Or.inl ⟨"good\t2".toList, by decide⟩)

/-!
## The concrete scenario of the spec's Testable Properties

Lexicon `{"good": 2, "bad": -3}`, grid with the single region `A` spanning
`[0,10] × [0,10]`, and the mapper/filter registered in `__main__`
(lines 237–238).
-/

/-- Python `str.rstrip(chars)`: trailing characters in `cs` removed. -/
def pyRstrip (s : Str) (cs : List Char) : Str :=
  (s.reverse.dropWhile (fun c => cs.contains c)).reverse

/-- The text mapper registered in `__main__` (`src/main.py` line 237):
`lambda x: x.lower().rstrip("!,?.’”")`.  `Char.toLower` agrees with Python
`str.lower` on the ASCII tokens of the scenarios. -/
def mainTextMapper (x : Str) : Str :=
  pyRstrip (x.map Char.toLower) ['!', ',', '?', '.', '’', '”']

/-- The text filter registered in `__main__` (`src/main.py` line 238):
`lambda x: x in sentiment.map`. -/
def mainTextFilter (m : List (Str × Str)) (x : Str) : Bool :=
  (dictLookup m x).isSome

/-- The scenario lexicon `{"good": 2, "bad": -3}` (weights stored as
strings, exactly as `SentimentMap` stores them). -/
def scenarioLexicon : List (Str × Str) :=
  [("good".toList, "2".toList), ("bad".toList, "-3".toList)]

/-- The scenario grid: one region `A` spanning `[0,10] × [0,10]`. -/
def scenarioGrid : AreaGrid :=
  [("A".toList, ⟨0, 10, 0, 10⟩)]

/-- The factory as configured in `__main__` over the scenario data. -/
def scenarioFactory : Factory :=
  ⟨[mainTextMapper], [mainTextFilter scenarioLexicon], scenarioLexicon, scenarioGrid⟩

/-- The scenario record `{text: "good bad", coordinates: [5, 5]}`. -/
def scenarioRecordIn : RawRecord := ⟨some "good bad".toList, some (5, 5)⟩

/-- The scenario record at `coordinates: [50, 50]`, outside every region. -/
def scenarioRecordFar : RawRecord := ⟨some "good bad".toList, some (50, 50)⟩

/-- A second well-formed record for the malformed-record scenario. -/
def scenarioRecordGood2 : RawRecord := ⟨some "good".toList, some (1, 1)⟩

/-- The malformed record of the spec scenario: `coordinates` missing. -/
def scenarioRecordNoCoords : RawRecord := ⟨some "good".toList, none⟩

/-- Claim C2: when every token of the text is present in the lexicon (with
an integer-parseable weight `w tok`), the reducer returns exactly the sum of
those weights; and the full scenario run — lexicon `{"good":2,"bad":-3}`,
one region `A` over `[0,10]×[0,10]`, one record `"good bad"` at `[5,5]` —
assigns region `A` the total `-1`. -/
theorem spec_C2_reducer_sums (text : List Str) (m : List (Str × Str)) (w : Str → Int)
    (h : ∀ tok ∈ text, (dictLookup m tok).bind pyInt = some (w tok)) :
    sentiment_reducer text m = some ((text.map w).sum)
    ∧ runAggregate scenarioFactory [scenarioRecordIn] = some [("A".toList, -1)] := by
  refine ⟨?_, by decide⟩
  suffices hgen : ∀ (ts : List Str) (n : Int),
      (∀ tok ∈ ts, (dictLookup m tok).bind pyInt = some (w tok)) →
      ts.foldlM (fun n i => ((dictLookup m i).bind pyInt).map (n + ·)) n
        = some (n + (ts.map w).sum) by
    simpa [sentiment_reducer] using hgen text 0 h
  intro ts
  induction ts with
  | nil => intro n _; simp
  | cons i tl ih =>
    intro n hall
    rw [List.foldlM_cons, hall i (List.mem_cons_self i tl)]
    simpa [add_assoc] using
      ih (n + w i) (fun tok ht => hall tok (List.mem_cons_of_mem _ ht))

/-- Concrete instance of C2: the reducer on `["good", "bad"]` with the
scenario lexicon returns `2 + (-3) = -1`. -/
theorem spec_C2_witness :
    sentiment_reducer ["good".toList, "bad".toList] scenarioLexicon = some (-1) := by
  have h := (spec_C2_reducer_sums ["good".toList, "bad".toList] scenarioLexicon
    (fun tok => if tok = "good".toList then 2 else -3) (by decide)).1
  exact h.trans (by decide)

/-- Claim C3: a well-formed record whose coordinate is contained in no
region's box produces the drop signal `(None, 0)` and contributes nothing;
in the concrete scenario, the record at `[50,50]` leaves region `A` at 0. -/
theorem spec_C3_unclassified_dropped (f : Factory) (t : Str) (c : Int × Int)
    (h : ∀ r ∈ f.area_map, boxContains r.2 c = false) :
    f.produce ⟨some t, some c⟩ = some (none, 0)
    ∧ runAggregate scenarioFactory [scenarioRecordFar] = some [("A".toList, 0)] := by
  refine ⟨?_, by decide⟩
  have harea : area_mapper c f.area_map = [] := by
    simp only [area_mapper]
    rw [List.filter_eq_nil_iff.mpr]
    intro x hx
    simp [h x hx]
  simp [Factory.produce, harea]

/-- Concrete instance of C3: the scenario factory drops the record at
`[50,50]`. -/
theorem spec_C3_witness :
    scenarioFactory.produce ⟨some "good bad".toList, some (50, 50)⟩ = some (none, 0) :=
  (spec_C3_unclassified_dropped scenarioFactory "good bad".toList (50, 50) (by decide)).1

/-- If some record of the stream makes `produce` raise, the whole driver
loop raises: the loop body of `__main__` has no per-record error
handling. -/
theorem runLoop_none_of_bad_item (f : Factory) :
    ∀ (items : List RawRecord) (res : List (Str × Int)),
      (∃ item ∈ items, f.produce item = none) →
      runLoop f res items = none := by
  intro items
  induction items with
  | nil => intro res h; simp at h
  | cons a l ih =>
    intro res h
    rcases h with ⟨item, hmem, hbad⟩
    rcases List.mem_cons.mp hmem with rfl | hmem'
    · simp [runLoop, hbad]
    · cases hp : f.produce a with
      | none => simp [runLoop, hp]
      | some kv =>
        rcases kv with ⟨k, v⟩
        cases k with
        | none => simpa [runLoop, hp] using ih res ⟨item, hmem', hbad⟩
        | some a' =>
          cases hu : updateAdd res a' v with
          | none => simp [runLoop, hp, hu]
          | some res' => simpa [runLoop, hp, hu] using ih res' ⟨item, hmem', hbad⟩

/-- Claim C7, counterexample to the claim as stated: with a record missing
its `coordinates` between two well-formed records, the run does not drop the
bad record and keep going — it aborts (`KeyError` escapes the loop), so no
aggregate is produced at all. -/
theorem spec_C7_counterexample :
    runAggregate scenarioFactory
      [scenarioRecordIn, scenarioRecordNoCoords, scenarioRecordGood2] = none := by
  decide

/-- Claim C7 (amended): a record missing its `text` or `coordinates` field
makes `produce` raise `KeyError`, and since the driver loop of `__main__`
has no per-record error handling, any stream containing such a record makes
the whole run abort with no result; well-formed records are not salvaged and
no error count is reported. -/
theorem spec_C7_malformed_aborts_run (f : Factory) (items : List RawRecord)
    (h : ∃ item ∈ items, item.text = none ∨ item.coordinates = none) :
    runAggregate f items = none := by
  rcases h with ⟨item, hmem, hbad⟩
  apply runLoop_none_of_bad_item
  refine ⟨item, hmem, ?_⟩
  rcases hbad with ht | hc
  · simp [Factory.produce, ht]
  · simp [Factory.produce, hc]

/-- Concrete instance of the amended C7: a single record missing its
`coordinates` aborts the run. -/
theorem spec_C7_witness :
    runAggregate scenarioFactory [scenarioRecordNoCoords] = none :=
  spec_C7_malformed_aborts_run scenarioFactory [scenarioRecordNoCoords]
    ⟨scenarioRecordNoCoords, List.mem_singleton_self _, Or.inr rfl⟩

/-- `result[k] += v` changes no key of the result mapping. -/
theorem updateAdd_keys {res res' : List (Str × Int)} {k : Str} {v : Int}
    (h : updateAdd res k v = some res') :
    res'.map Prod.fst = res.map Prod.fst := by
  unfold updateAdd at h
  split at h
  · injection h with h
    subst h
    rw [List.map_map]
    refine List.map_congr_left fun p _ => ?_
    by_cases hp : p.1 = k <;> simp [hp]
  · exact absurd h (by simp)

/-- Folding pointwise-equal step functions from any start gives the same
result. -/
theorem foldl_step_ext {α β : Type} (f g : β → α → β) (l : List α)
    (h : ∀ acc, ∀ p ∈ l, f acc p = g acc p) :
    ∀ acc, l.foldl f acc = l.foldl g acc := by
  induction l with
  | nil => intro acc; rfl
  | cons p l ih =>
    intro acc
    rw [List.foldl_cons, List.foldl_cons, h acc p (List.mem_cons_self p l)]
    exact ih (fun acc q hq => h acc q (List.mem_cons_of_mem _ hq)) _

/-- `result[k] += v` leaves the binding of every other key unchanged. -/
theorem updateAdd_dictLookup_ne {res res' : List (Str × Int)} {k : Str} {v : Int}
    (h : updateAdd res k v = some res') (idr : Str) (hne : idr ≠ k) :
    dictLookup res' idr = dictLookup res idr := by
  unfold updateAdd at h
  split at h
  · injection h with h
    subst h
    unfold dictLookup
    rw [List.foldl_map]
    refine foldl_step_ext _ _ res (fun acc p _ => ?_) none
    by_cases hpk : p.1 = k
    · simp [hpk, Ne.symm hne]
    · simp [hpk]
  · exact absurd h (by simp)

/-- Over any successful run of the driver loop, the key list of the result
mapping is preserved. -/
theorem runLoop_keys (f : Factory) :
    ∀ (items : List RawRecord) (res res' : List (Str × Int)),
      runLoop f res items = some res' →
      res'.map Prod.fst = res.map Prod.fst := by
  intro items
  induction items with
  | nil =>
    intro res res' h
    simp only [runLoop, Option.some.injEq] at h
    rw [h]
  | cons a l ih =>
    intro res res' h
    cases hp : f.produce a with
    | none => simp [runLoop, hp] at h
    | some kv =>
      rcases kv with ⟨k, v⟩
      cases k with
      | none =>
        simp only [runLoop, hp] at h
        exact ih res res' h
      | some a' =>
        cases hu : updateAdd res a' v with
        | none => simp [runLoop, hp, hu] at h
        | some res1 =>
          simp only [runLoop, hp, hu] at h
          exact (ih res1 res' h).trans (updateAdd_keys hu)

/-- Over any successful run of the driver loop, a region id that no
processed record classifies to keeps its initial binding. -/
theorem runLoop_dictLookup_untouched (f : Factory) (idr : Str) :
    ∀ (items : List RawRecord) (res res' : List (Str × Int)),
      runLoop f res items = some res' →
      (∀ item ∈ items, ∀ v : Int, f.produce item ≠ some (some idr, v)) →
      dictLookup res' idr = dictLookup res idr := by
  intro items
  induction items with
  | nil =>
    intro res res' h _
    simp only [runLoop, Option.some.injEq] at h
    rw [h]
  | cons a l ih =>
    intro res res' h hnot
    cases hp : f.produce a with
    | none => simp [runLoop, hp] at h
    | some kv =>
      rcases kv with ⟨k, v⟩
      cases k with
      | none =>
        simp only [runLoop, hp] at h
        exact ih res res' h fun item hm => hnot item (List.mem_cons_of_mem _ hm)
      | some a' =>
        have hne : a' ≠ idr := by
          intro hEq
          subst hEq
          exact hnot a (List.mem_cons_self a l) v hp
        cases hu : updateAdd res a' v with
        | none => simp [runLoop, hp, hu] at h
        | some res1 =>
          simp only [runLoop, hp, hu] at h
          have h1 := ih res1 res' h fun item hm => hnot item (List.mem_cons_of_mem _ hm)
          exact h1.trans (updateAdd_dictLookup_ne hu idr (Ne.symm hne))

/-- Claim C8: a successful run produces a result whose keys are exactly the
grid's region ids in order (never a key outside the grid); the initial
result binds every region to 0; and a region id to which no processed
record classifies keeps its initial (zero) binding. -/
theorem spec_C8_aggregate_keys_invariant (f : Factory) (items : List RawRecord)
    (res : List (Str × Int)) (hrun : runAggregate f items = some res) :
    res.map Prod.fst = f.area_map.map Prod.fst
    ∧ (∀ p ∈ initResult f.area_map, p.2 = 0)
    ∧ ∀ idr : Str, (∀ item ∈ items, ∀ v : Int, f.produce item ≠ some (some idr, v)) →
        dictLookup res idr = dictLookup (initResult f.area_map) idr := by
  refine ⟨?_, ?_, ?_⟩
  · rw [runLoop_keys f items (initResult f.area_map) res hrun]
    simp [initResult]
  · intro p hp
    simp only [initResult, List.mem_map] at hp
    rcases hp with ⟨r, _, rfl⟩
    rfl
  · intro idr hnone
    exact runLoop_dictLookup_untouched f idr items (initResult f.area_map) res hrun hnone

/-- Concrete instance of C8: after the scenario run, the result's keys are
exactly the grid's region ids. -/
theorem spec_C8_witness :
    ([(("A".toList : Str), (-1 : Int))]).map Prod.fst = scenarioGrid.map Prod.fst :=
  (spec_C8_aggregate_keys_invariant scenarioFactory [scenarioRecordIn]
    [("A".toList, -1)] (by decide)).1

/-- Claim C9 (refuted by the code): after `load_from_file_massive` on a
fresh file system, exactly one handle has been opened — and `close()` is a
no-op, leaving it open, because `load_from_file_massive` never assigns the
opened file to `self.massive_file` (which stays `None` from `__init__`). -/
theorem spec_C9_close_leaks_handle :
    (TwitterData.load_from_file_massive TwitterData.init ⟨0, []⟩).2.openHandles = [0]
    ∧ (TwitterData.load_from_file_massive TwitterData.init ⟨0, []⟩).1.massive_file = none
    ∧ TwitterData.close (TwitterData.load_from_file_massive TwitterData.init ⟨0, []⟩).1
        (TwitterData.load_from_file_massive TwitterData.init ⟨0, []⟩).2
      = (TwitterData.load_from_file_massive TwitterData.init ⟨0, []⟩).2
    ∧ 0 ∈ (TwitterData.close (TwitterData.load_from_file_massive TwitterData.init ⟨0, []⟩).1
        (TwitterData.load_from_file_massive TwitterData.init ⟨0, []⟩).2).openHandles := by
  refine ⟨rfl, rfl, rfl, ?_⟩
  decide
